import Mathlib

/-!
Shallow embedding of the `taskr` task-tracking CLI (sources: `src/main.rs`,
`src/cli.rs`).  Pure Lean models of the data types, the on-disk state, the
command dispatcher and the JSON document codec, followed by theorems settling
the specification claims.

Modelling conventions:
* `u64` values (task ids, the allocator counter) are `Nat`; the one arithmetic
  operation the source performs on them (`id + 1` in `Commands::Add`) is
  modelled with an explicit `% 2 ^ 64` (`nextIdValue`), since Rust `u64`
  addition is unguarded there.
* `HashMap<u64, Task>` is modelled as an association list with the usual
  replace-on-insert semantics (`TaskMap`).  No iteration order is relied on.
* `OffsetDateTime` (the `time` crate, second precision as discussed by the
  spec) is modelled as a civil date-time plus a UTC offset (`DateTime`); its
  position on the real time line is `DateTime.instant`.
* The filesystem side effects of `main` are modelled as explicit state
  passing over `FsState` (the two files `tasks.json` and `next_id.txt`,
  `none` when a file does not exist); `process::exit`, `return` from `main`
  and `.expect(..)` panics become the `ExitStatus` of a `CmdResult`, and
  `println!` calls become its `output` list.
-/

namespace Taskr

/-- Model of `TaskStatus` from `src/cli.rs`: `Todo`, `Complete`, or a
free-text `Other(String)` category. -/
inductive TaskStatus where
  | Todo : TaskStatus
  | Complete : TaskStatus
  | Other : String → TaskStatus
deriving DecidableEq

/-- Model of `time::OffsetDateTime` at second precision: a civil date-time
together with a UTC offset (`offNeg` is the sign of the offset,
`offH`/`offM` its magnitude), which is exactly the information an RFC 3339
timestamp without a fractional part carries. -/
structure DateTime where
  year : Nat
  month : Nat
  day : Nat
  hour : Nat
  minute : Nat
  second : Nat
  offNeg : Bool
  offH : Nat
  offM : Nat
deriving DecidableEq

/-- Model of `struct Task` from `src/main.rs`. -/
structure Task where
  description : String
  status : TaskStatus
  created : DateTime
  updated : DateTime
deriving DecidableEq

/-- Model of the `tasks: HashMap<u64, Task>` field of `TaskContainer`:
an association list from id to task with replace-on-insert semantics. -/
abbrev TaskMap := List (Nat × Task)

/-- `HashMap::get`: the task stored at `id`, if any. -/
def TaskMap.get (m : TaskMap) (id : Nat) : Option Task :=
  match m.find? (fun p => p.1 == id) with
  | some p => some p.2
  | none => none

/-- `HashMap::remove`: drop the entry stored at `id`. -/
def TaskMap.remove (m : TaskMap) (id : Nat) : TaskMap :=
  m.filter (fun p => p.1 != id)

/-- `HashMap::insert`: store `t` at `id`, replacing any previous entry. -/
def TaskMap.insert (m : TaskMap) (id : Nat) (t : Task) : TaskMap :=
  (id, t) :: TaskMap.remove m id

/-- The persisted state one invocation of `main` sees: the parsed contents of
`tasks.json` and of `next_id.txt`, with `none` meaning the file does not
exist yet. -/
structure FsState where
  tasksFile : Option TaskMap
  idFile : Option Nat
deriving DecidableEq

/-- How the process ends: `success` models falling off or `return`ing from
`main` (exit code 0), `exited n` models `process::exit(n)`, and `panicked`
models an `.expect(..)` panic (a nonzero exit whose message goes to the
user on standard error). -/
inductive ExitStatus where
  | success : ExitStatus
  | exited : Nat → ExitStatus
  | panicked : String → ExitStatus
deriving DecidableEq

/-- The numeric process exit code of an `ExitStatus` (Rust panics abort the
process with code 101). -/
def ExitStatus.code : ExitStatus → Nat
  | ExitStatus.success => 0
  | ExitStatus.exited n => n
  | ExitStatus.panicked _ => 101

/-- Result of dispatching one command: how the process exited, the final
on-disk state, and the lines printed to the user. -/
structure CmdResult where
  exit : ExitStatus
  state : FsState
  output : List String
deriving DecidableEq

/-- The container `main` loads before dispatching: the parsed `tasks.json`,
or an empty map when the file does not exist. -/
def loadContainer (st : FsState) : TaskMap :=
  match st.tasksFile with
  | some m => m
  | none => []

/-- The id `Commands::Add` computes from the stored counter value: `id + 1`
on `u64`, which is unguarded 64-bit addition, hence the explicit wrap. -/
def nextIdValue (v : Nat) : Nat :=
  (v + 1) % 2 ^ 64

/-- Model of the `Commands::Add` arm of `main`: initialize `next_id.txt` to 0
if absent, read it, increment, persist the new counter, insert a fresh
`Todo` task with `created = updated = now` under the new id, and persist the
container.  It always succeeds and prints nothing. -/
def addCmd (st : FsState) (now : DateTime) (description : String) : CmdResult :=
  let v := st.idFile.getD 0
  let newId := nextIdValue v
  let task : Task := ⟨description, TaskStatus.Todo, now, now⟩
  let m2 := TaskMap.insert (loadContainer st) newId task
  ⟨ExitStatus.success, ⟨some m2, some newId⟩, []⟩

/-- Model of the `Commands::Update` arm of `main`: if `tasks.json` does not
exist, print a message and `return` (exit 0); if the id is absent, print a
message and `process::exit(1)`; otherwise replace the description, keep
status and `created`, set `updated := now`, and persist. -/
def updateCmd (st : FsState) (now : DateTime) (id : Nat) (description : String) : CmdResult :=
  match st.tasksFile with
  | none => ⟨ExitStatus.success, st, ["No tasks found, start create one first"]⟩
  | some m =>
    match TaskMap.get m id with
    | none => ⟨ExitStatus.exited 1, st, ["No task with found with ID: " ++ toString id]⟩
    | some oldTask =>
      let newTask : Task := ⟨description, oldTask.status, oldTask.created, now⟩
      ⟨ExitStatus.success, ⟨some (TaskMap.insert m id newTask), st.idFile⟩, []⟩

/-- Model of the `Commands::Delete` arm of `main`: if `tasks.json` does not
exist, print a message and `return` (exit 0); if the id is absent,
`.remove(id).expect(..)` panics; otherwise remove the entry and persist. -/
def deleteCmd (st : FsState) (id : Nat) : CmdResult :=
  match st.tasksFile with
  | none => ⟨ExitStatus.success, st, ["No tasks found, start create one first"]⟩
  | some m =>
    match TaskMap.get m id with
    | none => ⟨ExitStatus.panicked ("No task found with that ID"), st, []⟩
    | some _ => ⟨ExitStatus.success, ⟨some (TaskMap.remove m id), st.idFile⟩, []⟩

/-- Model of the `Commands::Status` arm of `main`: same failure paths as
`Update`; otherwise replace the status only, keep description and `created`,
set `updated := now`, and persist. -/
def statusCmd (st : FsState) (now : DateTime) (id : Nat) (newStatus : TaskStatus) : CmdResult :=
  match st.tasksFile with
  | none => ⟨ExitStatus.success, st, ["No tasks found, start create one first"]⟩
  | some m =>
    match TaskMap.get m id with
    | none => ⟨ExitStatus.exited 1, st, ["No task with found with ID: " ++ toString id]⟩
    | some oldTask =>
      let newTask : Task := ⟨oldTask.description, newStatus, oldTask.created, now⟩
      ⟨ExitStatus.success, ⟨some (TaskMap.insert m id newTask), st.idFile⟩, []⟩

/-- Model of the `Commands::List` arm of `main`: with `--all` every task is
collected; otherwise the tasks whose status equals the filter status
(structural equality, so exact label equality on the `Other` arm). -/
def listCmd (m : TaskMap) (status : TaskStatus) (all : Bool) : List (Nat × Task) :=
  if all then m
  else
    match status with
    | TaskStatus.Todo => m.filter (fun p => decide (p.2.status = TaskStatus.Todo))
    | TaskStatus.Complete => m.filter (fun p => decide (p.2.status = TaskStatus.Complete))
    | TaskStatus.Other category => m.filter (fun p => decide (p.2.status = TaskStatus.Other category))

/-- The CLI default for `list` when no status argument is given
(`default_value_t = TaskStatus::Todo` in `src/cli.rs`). -/
def defaultListStatus : TaskStatus := TaskStatus.Todo

/-- The ids issued by a sequence of `Add` invocations (one per description in
`ds`), each invocation running on the state the previous one left behind. -/
def issuedIds (st : FsState) (now : DateTime) (ds : List String) : List Nat :=
  match ds with
  | [] => []
  | d :: rest => nextIdValue (st.idFile.getD 0) :: issuedIds (addCmd st now d).state now rest

/-- Model of Rust `str::to_lowercase` as used on status input strings
(per-character lowercasing; the inputs of interest are ASCII). -/
def rustToLowercase (s : String) : String :=
  String.mk (s.data.map Char.toLower)

/-- Model of Rust `str::trim`: remove leading and trailing whitespace. -/
def rustTrim (s : String) : String :=
  String.mk (((s.data.dropWhile Char.isWhitespace).reverse.dropWhile Char.isWhitespace).reverse)

/-- Model of `TaskStatus::from_str` from `src/cli.rs`: lowercase, then trim,
then match against the two known labels, anything else becoming `Other`.
The Rust impl has `type Err = String` but every arm returns `Ok`. -/
def TaskStatus.fromStr (s : String) : Except String TaskStatus :=
  let t := rustTrim (rustToLowercase s)
  if t = "todo" then Except.ok TaskStatus.Todo
  else if t = "complete" then Except.ok TaskStatus.Complete
  else Except.ok (TaskStatus.Other t)

/-- Days between a civil date and 1970-01-01 (Howard Hinnant's
`days_from_civil`, the standard proleptic-Gregorian conversion), used to
place a `DateTime` on the time line. -/
def DateTime.daysFromCivil (dt : DateTime) : Int :=
  let y : Int := if dt.month ≤ 2 then (dt.year : Int) - 1 else (dt.year : Int)
  let era : Int := (if 0 ≤ y then y else y - 399) / 400
  let yoe : Int := y - era * 400
  let mp : Int := ((dt.month : Int) + 9) % 12
  let doy : Int := (153 * mp + 2) / 5 + (dt.day : Int) - 1
  let doe : Int := yoe * 365 + yoe / 4 - yoe / 100 + doy
  era * 146097 + doe - 719468

/-- The UTC offset of a `DateTime`, in seconds. -/
def DateTime.offsetSeconds (dt : DateTime) : Int :=
  (if dt.offNeg then -1 else 1) * ((dt.offH : Int) * 3600 + (dt.offM : Int) * 60)

/-- Seconds since the epoch: the instant a `DateTime` denotes.  Comparing
instants is the model of comparing `OffsetDateTime` values in real time. -/
def DateTime.instant (dt : DateTime) : Int :=
  dt.daysFromCivil * 86400 + (dt.hour : Int) * 3600 + (dt.minute : Int) * 60
    + (dt.second : Int) - dt.offsetSeconds

/-- The store invariant claimed by the spec: every task has
`created <= updated` (as instants in real time). -/
def StoreInv (m : TaskMap) : Prop :=
  ∀ p ∈ m, DateTime.instant (Task.created p.2) ≤ DateTime.instant (Task.updated p.2)

instance (m : TaskMap) : Decidable (StoreInv m) :=
  List.decidableBAll _ m

/-! ### The on-disk document format

`tasks.json` is the serde JSON rendering of `TaskContainer`: one object field
`tasks` mapping the decimal string of each `u64` id to a task object with
fields `description`, `status` (externally tagged enum: the bare strings
`Todo` / `Complete`, or an object with one `Other` field), `created` and
`updated` (RFC 3339 strings, rendered here at the second precision the spec
discusses).  The fragment of JSON these documents inhabit is modelled by
`Json`. -/

/-- The fragment of JSON the task document uses: strings and objects. -/
inductive Json where
  | str : String → Json
  | obj : List (String × Json) → Json

/-- The character for a decimal digit. -/
def digitToChar (d : Nat) : Char :=
  Char.ofNat (48 + d)

/-- The decimal digit denoted by a character, if any. -/
def charToDigit (c : Char) : Option Nat :=
  if 48 ≤ c.toNat ∧ c.toNat ≤ 57 then some (c.toNat - 48) else none

/-- Decimal digits of `n`, most significant first; `fuel` bounds the
recursion and any `fuel ≥ n` is enough. -/
def toDecimalAux : Nat → Nat → List Char
  | 0, _ => []
  | _ + 1, 0 => []
  | fuel + 1, n + 1 => toDecimalAux fuel ((n + 1) / 10) ++ [digitToChar ((n + 1) % 10)]

/-- The decimal rendering of a `u64` value (`u64::to_string`), as used for
the object keys of the `tasks` field and for `next_id.txt`. -/
def natToDecimal (n : Nat) : List Char :=
  if n = 0 then ['0'] else toDecimalAux n n

/-- Fold decimal digits into a number, failing on a non-digit. -/
def fromDecimalAux : List Char → Nat → Option Nat
  | [], acc => some acc
  | c :: cs, acc => (charToDigit c).bind (fun d => fromDecimalAux cs (acc * 10 + d))

/-- Parse a decimal string back into a number (`u64::from_str` on keys):
fails on the empty string or on any non-digit character. -/
def decimalToNat (cs : List Char) : Option Nat :=
  if cs = [] then none else fromDecimalAux cs 0

/-- Two-digit zero-padded decimal field of an RFC 3339 timestamp. -/
def pad2 (n : Nat) : List Char :=
  [digitToChar (n / 10 % 10), digitToChar (n % 10)]

/-- Four-digit zero-padded year field of an RFC 3339 timestamp. -/
def pad4 (n : Nat) : List Char :=
  [digitToChar (n / 1000 % 10), digitToChar (n / 100 % 10),
   digitToChar (n / 10 % 10), digitToChar (n % 10)]

/-- Parse a two-digit field. -/
def parse2c (a b : Char) : Option Nat :=
  match charToDigit a, charToDigit b with
  | some x, some y => some (10 * x + y)
  | _, _ => none

/-- Parse a four-digit field. -/
def parse4c (a b c d : Char) : Option Nat :=
  match charToDigit a, charToDigit b, charToDigit c, charToDigit d with
  | some x, some y, some z, some w => some (1000 * x + 100 * y + 10 * z + w)
  | _, _, _, _ => none

/-- Parse the sign of a UTC offset. -/
def parseSign (c : Char) : Option Bool :=
  if c = '+' then some false
  else if c = '-' then some true
  else none

/-- RFC 3339 rendering of a `DateTime` (the `time::serde::rfc3339`
serializer at second precision): `YYYY-MM-DDTHH:MM:SS±HH:MM`. -/
def encodeRfc3339 (dt : DateTime) : String :=
  String.mk (pad4 dt.year ++ '-' :: (pad2 dt.month ++ '-' :: (pad2 dt.day
    ++ 'T' :: (pad2 dt.hour ++ ':' :: (pad2 dt.minute ++ ':' :: (pad2 dt.second
    ++ (if dt.offNeg then '-' else '+') :: (pad2 dt.offH ++ ':' :: pad2 dt.offM)))))))

/-- RFC 3339 parsing on the character list of the timestamp string. -/
def decodeRfc3339List : List Char → Option DateTime
  | [y1, y2, y3, y4, '-', a1, a2, '-', b1, b2, 'T', h1, h2, ':', i1, i2, ':',
     s1, s2, sg, o1, o2, ':', q1, q2] =>
    match parse4c y1 y2 y3 y4, parse2c a1 a2, parse2c b1 b2, parse2c h1 h2,
        parse2c i1 i2, parse2c s1 s2, parseSign sg, parse2c o1 o2, parse2c q1 q2 with
    | some y, some mo, some d, some h, some mi, some s, some neg, some oh, some om =>
      some ⟨y, mo, d, h, mi, s, neg, oh, om⟩
    | _, _, _, _, _, _, _, _, _ => none
  | _ => none

/-- RFC 3339 parsing of a timestamp string (the `time::serde::rfc3339`
deserializer restricted to the strings the serializer above produces). -/
def decodeRfc3339 (s : String) : Option DateTime :=
  decodeRfc3339List s.data

/-- Serde serialization of `TaskStatus` (externally tagged enum). -/
def encodeStatus : TaskStatus → Json
  | TaskStatus.Todo => Json.str ("Todo")
  | TaskStatus.Complete => Json.str ("Complete")
  | TaskStatus.Other label => Json.obj [("Other", Json.str label)]

/-- Serde deserialization of `TaskStatus`. -/
def decodeStatus : Json → Option TaskStatus
  | Json.str s =>
    if s = "Todo" then some TaskStatus.Todo
    else if s = "Complete" then some TaskStatus.Complete
    else none
  | Json.obj [("Other", Json.str label)] => some (TaskStatus.Other label)
  | _ => none

/-- Serde serialization of a `Task`: fields in declaration order. -/
def encodeTask (t : Task) : Json :=
  Json.obj [("description", Json.str t.description), ("status", encodeStatus t.status),
    ("created", Json.str (encodeRfc3339 t.created)),
    ("updated", Json.str (encodeRfc3339 t.updated))]

/-- Serde deserialization of a `Task` (on the documents the serializer
produces, whose fields are in declaration order). -/
def decodeTask : Json → Option Task
  | Json.obj [("description", Json.str d), ("status", sj),
      ("created", Json.str c), ("updated", Json.str u)] =>
    match decodeStatus sj, decodeRfc3339 c, decodeRfc3339 u with
    | some st, some cr, some up => some ⟨d, st, cr, up⟩
    | _, _, _ => none
  | _ => none

/-- Serde serialization of `TaskContainer`: the `tasks` object, keyed by the
decimal rendering of each id. -/
def encodeContainer (m : TaskMap) : Json :=
  Json.obj [("tasks", Json.obj (m.map (fun p => (String.mk (natToDecimal p.1), encodeTask p.2))))]

/-- Deserialize the entries of the `tasks` object one by one. -/
def decodeEntries : List (String × Json) → Option TaskMap
  | [] => some []
  | (k, v) :: rest =>
    match decimalToNat k.data, decodeTask v, decodeEntries rest with
    | some id, some t, some m => some ((id, t) :: m)
    | _, _, _ => none

/-- Serde deserialization of `TaskContainer`. -/
def decodeContainer : Json → Option TaskMap
  | Json.obj [("tasks", Json.obj entries)] => decodeEntries entries
  | _ => none

/-- Field bounds under which a `DateTime` is rendered faithfully by the
fixed-width RFC 3339 format (every actual `OffsetDateTime` satisfies them;
the `time` crate itself refuses to format years outside 0..9999). -/
def ValidDT (dt : DateTime) : Prop :=
  dt.year < 10000 ∧ dt.month < 100 ∧ dt.day < 100 ∧ dt.hour < 100
    ∧ dt.minute < 100 ∧ dt.second < 100 ∧ dt.offH < 100 ∧ dt.offM < 100

instance (dt : DateTime) : Decidable (ValidDT dt) := by
  unfold ValidDT; infer_instance

/-- A task whose two timestamps are renderable. -/
def ValidTask (t : Task) : Prop :=
  ValidDT t.created ∧ ValidDT t.updated

instance (t : Task) : Decidable (ValidTask t) := by
  unfold ValidTask; infer_instance

/-! ### Sample values used to instantiate theorems on concrete inputs -/

/-- A sample timestamp (the epoch). -/
def sampleDT : DateTime := ⟨1970, 1, 1, 0, 0, 0, false, 0, 0⟩

/-- A sample timestamp five seconds after `sampleDT`. -/
def sampleDT2 : DateTime := ⟨1970, 1, 1, 0, 0, 5, false, 0, 0⟩

/-- A sample timestamp on the next day, with a negative UTC offset. -/
def sampleDT3 : DateTime := ⟨1970, 1, 2, 3, 0, 0, true, 1, 30⟩

/-- A sample task. -/
def sampleTask : Task := ⟨"buy milk", TaskStatus.Todo, sampleDT, sampleDT⟩

/-- A sample one-task store. -/
def sampleMap : TaskMap := [(1, sampleTask)]

/-- A sample on-disk state holding `sampleMap` and counter 1. -/
def sampleState : FsState := ⟨some sampleMap, some 1⟩

/-- A sample two-task store exercising the `Other` status and distinct
timestamps. -/
def sampleMap2 : TaskMap :=
  [(10, ⟨"buy milk", TaskStatus.Todo, sampleDT, sampleDT2⟩),
   (2, ⟨"write report", TaskStatus.Other ("waiting"), sampleDT3, sampleDT3⟩)]

/-! ### Map lemmas -/

theorem TaskMap.get_insert_self (m : TaskMap) (id : Nat) (t : Task) :
    TaskMap.get (TaskMap.insert m id t) id = some t := by
  simp [TaskMap.get, TaskMap.insert, List.find?]

theorem TaskMap.find?_remove_ne (m : TaskMap) (id j : Nat) (h : j ≠ id) :
    List.find? (fun p => p.1 == j) (TaskMap.remove m id)
      = List.find? (fun p => p.1 == j) m := by
  induction m with
  | nil => rfl
  | cons p rest ih =>
    simp only [TaskMap.remove] at ih ⊢
    rw [List.filter_cons]
    by_cases hp : p.1 = id
    · rw [if_neg (by simp [hp])]
      rw [List.find?_cons_of_neg _ (by simp only [hp]; simp; omega)]
      exact ih
    · rw [if_pos (by simp [hp])]
      by_cases hj : p.1 = j
      · rw [List.find?_cons_of_pos _ (by simp [hj]), List.find?_cons_of_pos _ (by simp [hj])]
      · rw [List.find?_cons_of_neg _ (by simp [hj]), List.find?_cons_of_neg _ (by simp [hj])]
        exact ih

theorem TaskMap.get_insert_ne (m : TaskMap) (id j : Nat) (t : Task) (h : j ≠ id) :
    TaskMap.get (TaskMap.insert m id t) j = TaskMap.get m j := by
  have h1 : (id == j) = false := by simp; omega
  simp only [TaskMap.get, TaskMap.insert, List.find?, h1]
  rw [TaskMap.find?_remove_ne m id j h]

theorem TaskMap.mem_insert_elim (m : TaskMap) (id : Nat) (t : Task) (p : Nat × Task)
    (h : p ∈ TaskMap.insert m id t) : p = (id, t) ∨ p ∈ m := by
  rcases List.mem_cons.mp h with h1 | h2
  · exact Or.inl h1
  · exact Or.inr (List.mem_filter.mp h2).1

theorem TaskMap.mem_remove_subset (m : TaskMap) (id : Nat) (p : Nat × Task)
    (h : p ∈ TaskMap.remove m id) : p ∈ m :=
  (List.mem_filter.mp h).1

/-! ### Decimal codec lemmas -/

theorem charToDigit_digitToChar : ∀ d : Nat, d < 10 → charToDigit (digitToChar d) = some d := by
  decide

theorem toDecimalAux_zero (fuel : Nat) : toDecimalAux fuel 0 = [] := by
  cases fuel <;> rfl

theorem fromDecimalAux_append (l1 l2 : List Char) (acc : Nat) :
    fromDecimalAux (l1 ++ l2) acc
      = (fromDecimalAux l1 acc).bind (fun a => fromDecimalAux l2 a) := by
  induction l1 generalizing acc with
  | nil => rfl
  | cons c cs ih =>
    simp only [List.cons_append, fromDecimalAux]
    cases charToDigit c with
    | none => rfl
    | some d =>
      rw [Option.some_bind', Option.some_bind']
      exact ih _

theorem fromDecimal_toDecimalAux (fuel : Nat) :
    ∀ n, 0 < n → n ≤ fuel → ∀ acc : Nat,
      fromDecimalAux (toDecimalAux fuel n) acc
        = some (acc * 10 ^ (toDecimalAux fuel n).length + n) := by
  induction fuel with
  | zero => intro n h1 h2; omega
  | succ f ih =>
    intro n h1 h2 acc
    match n, h1 with
    | m + 1, _ =>
      rw [toDecimalAux]
      by_cases hq : (m + 1) / 10 = 0
      · rw [hq, toDecimalAux_zero, List.nil_append]
        rw [fromDecimalAux, charToDigit_digitToChar _ (by omega), Option.some_bind',
          fromDecimalAux]
        have hr : (m + 1) % 10 = m + 1 := by omega
        simp [hr]
      · have hqf : (m + 1) / 10 ≤ f := by omega
        have hqpos : 0 < (m + 1) / 10 := Nat.pos_of_ne_zero hq
        rw [fromDecimalAux_append, ih _ hqpos hqf acc]
        rw [Option.some_bind']
        rw [fromDecimalAux, charToDigit_digitToChar _ (by omega), Option.some_bind',
          fromDecimalAux]
        rw [List.length_append]
        generalize (toDecimalAux f ((m + 1) / 10)).length = L
        rw [List.length_cons, List.length_nil, Nat.pow_succ]
        congr 1
        have hdm : 10 * ((m + 1) / 10) + (m + 1) % 10 = m + 1 := Nat.div_add_mod (m + 1) 10
        generalize hP : (10 : Nat) ^ L = P at *
        have hmm : acc * (P * 10) = acc * P * 10 := by ring
        rw [hmm]
        omega

theorem decimalToNat_natToDecimal (n : Nat) : decimalToNat (natToDecimal n) = some n := by
  by_cases h : n = 0
  · subst h; decide
  · rw [natToDecimal, if_neg h]
    have h1 : 0 < n := Nat.pos_of_ne_zero h
    have hne : toDecimalAux n n ≠ [] := by
      match n, h1 with
      | m + 1, _ =>
        rw [toDecimalAux]
        simp
    rw [decimalToNat, if_neg hne, fromDecimal_toDecimalAux n n h1 le_rfl 0]
    simp

/-! ### RFC 3339 codec lemmas -/

theorem parse2c_pad2 (n : Nat) (h : n < 100) :
    parse2c (digitToChar (n / 10 % 10)) (digitToChar (n % 10)) = some n := by
  rw [parse2c, charToDigit_digitToChar _ (by omega), charToDigit_digitToChar _ (by omega)]
  have : 10 * (n / 10 % 10) + n % 10 = n := by omega
  simp [this]

theorem parse4c_pad4 (n : Nat) (h : n < 10000) :
    parse4c (digitToChar (n / 1000 % 10)) (digitToChar (n / 100 % 10))
      (digitToChar (n / 10 % 10)) (digitToChar (n % 10)) = some n := by
  rw [parse4c, charToDigit_digitToChar _ (by omega), charToDigit_digitToChar _ (by omega),
    charToDigit_digitToChar _ (by omega), charToDigit_digitToChar _ (by omega)]
  have : 1000 * (n / 1000 % 10) + 100 * (n / 100 % 10) + 10 * (n / 10 % 10) + n % 10 = n := by
    omega
  simp [this]

theorem decodeRfc3339_mk (l : List Char) : decodeRfc3339 (String.mk l) = decodeRfc3339List l :=
  rfl

theorem decodeRfc3339_encodeRfc3339 (dt : DateTime) (h : ValidDT dt) :
    decodeRfc3339 (encodeRfc3339 dt) = some dt := by
  obtain ⟨y, mo, d, hh, mi, s, neg, oh, om⟩ := dt
  obtain ⟨h1, h2, h3, h4, h5, h6, h7, h8⟩ := h
  cases neg <;>
  · rw [encodeRfc3339, decodeRfc3339_mk]
    simp only [pad4, pad2, List.cons_append, List.nil_append]
    rw [decodeRfc3339List]
    rw [parse4c_pad4 y h1, parse2c_pad2 mo h2, parse2c_pad2 d h3, parse2c_pad2 hh h4,
      parse2c_pad2 mi h5, parse2c_pad2 s h6, parse2c_pad2 oh h7, parse2c_pad2 om h8]
    simp [parseSign]

/-! ### Container codec lemmas -/

theorem decodeStatus_encodeStatus (st : TaskStatus) : decodeStatus (encodeStatus st) = some st := by
  cases st <;> simp [encodeStatus, decodeStatus]

theorem decodeTask_encodeTask (t : Task) (h : ValidTask t) : decodeTask (encodeTask t) = some t := by
  obtain ⟨d, st, cr, up⟩ := t
  obtain ⟨hc, hu⟩ := h
  simp only [encodeTask, decodeTask]
  rw [decodeStatus_encodeStatus, decodeRfc3339_encodeRfc3339 _ hc,
    decodeRfc3339_encodeRfc3339 _ hu]

theorem decodeEntries_map (m : TaskMap) (h : ∀ p ∈ m, ValidTask p.2) :
    decodeEntries (m.map (fun p => (String.mk (natToDecimal p.1), encodeTask p.2))) = some m := by
  induction m with
  | nil => rfl
  | cons p rest ih =>
    simp only [List.map_cons, decodeEntries]
    rw [decimalToNat_natToDecimal, decodeTask_encodeTask _ (h p (by simp)),
      ih (fun q hq => h q (by simp [hq]))]

/-! ### Id-allocation lemmas -/

theorem listMapCongr {α β : Type} (f g : α → β) :
    ∀ l : List α, (∀ a ∈ l, f a = g a) → l.map f = l.map g := by
  intro l
  induction l with
  | nil => intro _; rfl
  | cons a rest ih =>
    intro h
    simp only [List.map_cons]
    rw [h a (by simp), ih (fun b hb => h b (by simp [hb]))]

theorem addCmd_idFile (st : FsState) (now : DateTime) (d : String) :
    (addCmd st now d).state.idFile = some (nextIdValue (st.idFile.getD 0)) := rfl

theorem issuedIds_spec (now : DateTime) (ds : List String) :
    ∀ st : FsState, issuedIds st now ds
      = (List.range ds.length).map (fun i => (st.idFile.getD 0 + i + 1) % 2 ^ 64) := by
  induction ds with
  | nil => intro st; rfl
  | cons d rest ih =>
    intro st
    rw [issuedIds, ih, addCmd_idFile, Option.getD_some]
    rw [List.length_cons, List.range_succ_eq_map, List.map_cons, List.map_map]
    congr 1
    apply listMapCongr
    intro i _
    simp only [Function.comp_apply, Nat.succ_eq_add_one, nextIdValue]
    rw [Nat.add_assoc _ i 1, Nat.mod_add_mod]
    congr 1
    omega

/-! ### Invariant lemmas -/

theorem StoreInv.insert (m : TaskMap) (id : Nat) (t : Task) (hm : StoreInv m)
    (h : DateTime.instant t.created ≤ DateTime.instant t.updated) :
    StoreInv (TaskMap.insert m id t) := by
  intro p hp
  rcases TaskMap.mem_insert_elim m id t p hp with h1 | h2
  · subst h1; exact h
  · exact hm p h2

theorem StoreInv.remove (m : TaskMap) (id : Nat) (hm : StoreInv m) :
    StoreInv (TaskMap.remove m id) :=
  fun p hp => hm p (TaskMap.mem_remove_subset m id p hp)

/-! ### Claim theorems -/

/-- C1 counterexample: when the task document has never been created
(`tasks.json` absent), Update/Delete/Status do hit the NotFound condition
and perform no write, but the process terminates with exit code 0 — not the
non-zero/error exit the claim states. -/
theorem notFound_missing_doc_exit_zero :
    (updateCmd ⟨none, none⟩ sampleDT 1 ("x")).exit.code = 0 ∧
    (updateCmd ⟨none, none⟩ sampleDT 1 ("x")).state = ⟨none, none⟩ ∧
    (deleteCmd ⟨none, none⟩ 1).exit.code = 0 ∧
    (statusCmd ⟨none, none⟩ sampleDT 1 TaskStatus.Complete).exit.code = 0 :=
  ⟨rfl, rfl, rfl, rfl⟩

/-- C1 (amended): on a NotFound condition, Update/Delete/Status report the
failure to the user and perform no write; the exit is non-zero only when the
document exists but the id is absent (`process::exit(1)` for Update/Status,
a panic for Delete), while a missing document yields a message and a normal
exit (code 0). -/
theorem notFound_reports_no_write (st : FsState) (now : DateTime) (id : Nat) (d : String)
    (ns : TaskStatus) :
    (st.tasksFile = none →
      updateCmd st now id d
        = ⟨ExitStatus.success, st, ["No tasks found, start create one first"]⟩ ∧
      deleteCmd st id
        = ⟨ExitStatus.success, st, ["No tasks found, start create one first"]⟩ ∧
      statusCmd st now id ns
        = ⟨ExitStatus.success, st, ["No tasks found, start create one first"]⟩) ∧
    (∀ m : TaskMap, st.tasksFile = some m → TaskMap.get m id = none →
      updateCmd st now id d
        = ⟨ExitStatus.exited 1, st, ["No task with found with ID: " ++ toString id]⟩ ∧
      deleteCmd st id
        = ⟨ExitStatus.panicked ("No task found with that ID"), st, []⟩ ∧
      statusCmd st now id ns
        = ⟨ExitStatus.exited 1, st, ["No task with found with ID: " ++ toString id]⟩) := by
  constructor
  · intro h
    refine ⟨?_, ?_, ?_⟩
    · simp [updateCmd, h]
    · simp [deleteCmd, h]
    · simp [statusCmd, h]
  · intro m hm hg
    refine ⟨?_, ?_, ?_⟩
    · simp [updateCmd, hm, hg]
    · simp [deleteCmd, hm, hg]
    · simp [statusCmd, hm, hg]

/-- C1 witness: Delete on an existing but empty document with an unknown id
panics (non-zero exit) without writing. -/
theorem notFound_reports_no_write_witness :
    deleteCmd ⟨some [], none⟩ 5
      = ⟨ExitStatus.panicked ("No task found with that ID"), ⟨some [], none⟩, []⟩ :=
  ((notFound_reports_no_write ⟨some [], none⟩ sampleDT 5 ("x") TaskStatus.Todo).2 [] rfl rfl).2.1

/-- C2: with `--all`, List returns every task of the store; otherwise it
returns exactly the tasks whose status equals the filter status under
structural (case-sensitive, exact-label) equality, and the default filter
when no status argument is given is `Todo`. -/
theorem list_filter_correct (m : TaskMap) (s : TaskStatus) (id : Nat) (t : Task) :
    listCmd m s true = m ∧
    ((id, t) ∈ listCmd m s false ↔ ((id, t) ∈ m ∧ t.status = s)) ∧
    defaultListStatus = TaskStatus.Todo := by
  refine ⟨rfl, ?_, rfl⟩
  cases s <;> simp [listCmd, List.mem_filter]

/-- C3: status parsing never fails — it returns `Ok` on every input string,
yielding `Todo` when the lowercased-trimmed input is `todo`, `Complete` when
it is `complete`, and otherwise `Other` carrying the lowercased-trimmed
input. -/
theorem fromStr_total (s : String) :
    (∃ st, TaskStatus.fromStr s = Except.ok st) ∧
    (rustTrim (rustToLowercase s) = "todo" →
      TaskStatus.fromStr s = Except.ok TaskStatus.Todo) ∧
    (rustTrim (rustToLowercase s) = "complete" →
      TaskStatus.fromStr s = Except.ok TaskStatus.Complete) ∧
    (rustTrim (rustToLowercase s) ≠ "todo" → rustTrim (rustToLowercase s) ≠ "complete" →
      TaskStatus.fromStr s = Except.ok (TaskStatus.Other (rustTrim (rustToLowercase s)))) := by
  refine ⟨?_, ?_, ?_, ?_⟩
  · simp only [TaskStatus.fromStr]
    split_ifs
    · exact ⟨TaskStatus.Todo, rfl⟩
    · exact ⟨TaskStatus.Complete, rfl⟩
    · exact ⟨TaskStatus.Other (rustTrim (rustToLowercase s)), rfl⟩
  · intro h1
    simp only [TaskStatus.fromStr]
    rw [if_pos h1]
  · intro h2
    simp only [TaskStatus.fromStr]
    rw [if_neg (by rw [h2]; decide), if_pos h2]
  · intro h1 h2
    simp only [TaskStatus.fromStr]
    rw [if_neg h1, if_neg h2]

/-- C3 witness: an upper-case padded input parses to `Todo`. -/
theorem fromStr_total_witness :
    TaskStatus.fromStr ("TODO ") = Except.ok TaskStatus.Todo :=
  (fromStr_total ("TODO ")).2.1 (by decide)

/-- C4 counterexample: starting from empty state, the claim "N consecutive
Adds issue exactly the ids 1..N" fails at N = 2^64, because the 2^64-th id
wraps to 0 instead of being 2^64. -/
theorem issuedIds_wrap_cex :
    issuedIds ⟨none, none⟩ sampleDT (List.replicate (2 ^ 64) ("x"))
      ≠ (List.range ((List.replicate (2 ^ 64) ("x")).length)).map (fun i => i + 1) := by
  intro hEq
  have h64 : (0 : Nat) < 2 ^ 64 := by positivity
  have h0 : (0 : Nat) ∈ issuedIds ⟨none, none⟩ sampleDT (List.replicate (2 ^ 64) ("x")) := by
    rw [issuedIds_spec]
    refine List.mem_map.mpr ⟨2 ^ 64 - 1, List.mem_range.mpr ?_, ?_⟩
    · rw [List.length_replicate]
      omega
    · show (0 + (2 ^ 64 - 1) + 1) % 2 ^ 64 = 0
      have he : 0 + (2 ^ 64 - 1) + 1 = 2 ^ 64 := by omega
      rw [he, Nat.mod_self]
  rw [hEq] at h0
  obtain ⟨i, _, hi⟩ := List.mem_map.mp h0
  omega

/-- C4 (amended): for every N < 2^64, performing N consecutive Adds starting
from empty state (no allocator file, empty store) issues exactly the ids
1, 2, ..., N in order, with no repeats; each Add reads the counter
(initializing it to 0 if absent), increments it, persists it, and uses it as
the new task's id. -/
theorem issuedIds_monotone (now : DateTime) (ds : List String) (h : ds.length < 2 ^ 64) :
    issuedIds ⟨none, none⟩ now ds = (List.range ds.length).map (fun i => i + 1) ∧
    (issuedIds ⟨none, none⟩ now ds).Nodup := by
  have hmain : issuedIds ⟨none, none⟩ now ds = (List.range ds.length).map (fun i => i + 1) := by
    rw [issuedIds_spec]
    apply listMapCongr
    intro i hi
    have hi2 : i < ds.length := List.mem_range.mp hi
    show (0 + i + 1) % 2 ^ 64 = i + 1
    rw [Nat.zero_add]
    exact Nat.mod_eq_of_lt (by omega)
  refine ⟨hmain, ?_⟩
  rw [hmain]
  exact List.Nodup.map (fun a b hab => by omega) (List.nodup_range _)

/-- C4 witness: two Adds from empty state issue the ids 1, 2. -/
theorem issuedIds_monotone_witness :
    issuedIds ⟨none, none⟩ sampleDT ["a", "b"]
      = (List.range (["a", "b"] : List String).length).map (fun i => i + 1) ∧
    (issuedIds ⟨none, none⟩ sampleDT ["a", "b"]).Nodup :=
  issuedIds_monotone sampleDT ["a", "b"] (by decide)

/-- C5: for a store containing the given id, Update replaces only that
task's description (keeping status and `created`, setting `updated := now`),
Status replaces only its status (keeping description and `created`, setting
`updated := now`), both leave every other id untouched, and applying Status
twice with the same status leaves description and `created` unchanged. -/
theorem update_status_frame (st : FsState) (now now2 : DateTime) (id : Nat) (d : String)
    (ns : TaskStatus) (m : TaskMap) (t : Task)
    (hm : st.tasksFile = some m) (ht : TaskMap.get m id = some t) :
    (∃ m1, (updateCmd st now id d).state.tasksFile = some m1 ∧
      TaskMap.get m1 id = some ⟨d, t.status, t.created, now⟩ ∧
      ∀ j, j ≠ id → TaskMap.get m1 j = TaskMap.get m j) ∧
    (∃ m2, (statusCmd st now id ns).state.tasksFile = some m2 ∧
      TaskMap.get m2 id = some ⟨t.description, ns, t.created, now⟩ ∧
      ∀ j, j ≠ id → TaskMap.get m2 j = TaskMap.get m j) ∧
    (∃ m3, (statusCmd (statusCmd st now id ns).state now2 id ns).state.tasksFile = some m3 ∧
      TaskMap.get m3 id = some ⟨t.description, ns, t.created, now2⟩) := by
  have h1 : updateCmd st now id d
      = ⟨ExitStatus.success,
          ⟨some (TaskMap.insert m id ⟨d, t.status, t.created, now⟩), st.idFile⟩, []⟩ := by
    simp [updateCmd, hm, ht]
  have h2 : statusCmd st now id ns
      = ⟨ExitStatus.success,
          ⟨some (TaskMap.insert m id ⟨t.description, ns, t.created, now⟩), st.idFile⟩, []⟩ := by
    simp [statusCmd, hm, ht]
  refine ⟨⟨TaskMap.insert m id ⟨d, t.status, t.created, now⟩, ?_, ?_, ?_⟩,
    ⟨TaskMap.insert m id ⟨t.description, ns, t.created, now⟩, ?_, ?_, ?_⟩, ?_⟩
  · rw [h1]
  · exact TaskMap.get_insert_self m id _
  · intro j hj
    exact TaskMap.get_insert_ne m id j _ hj
  · rw [h2]
  · exact TaskMap.get_insert_self m id _
  · intro j hj
    exact TaskMap.get_insert_ne m id j _ hj
  · have h3 : statusCmd (statusCmd st now id ns).state now2 id ns
        = ⟨ExitStatus.success,
            ⟨some (TaskMap.insert (TaskMap.insert m id ⟨t.description, ns, t.created, now⟩) id
              ⟨t.description, ns, t.created, now2⟩), st.idFile⟩, []⟩ := by
      rw [h2]
      simp [statusCmd, TaskMap.get_insert_self]
    refine ⟨TaskMap.insert (TaskMap.insert m id ⟨t.description, ns, t.created, now⟩) id
      ⟨t.description, ns, t.created, now2⟩, ?_, ?_⟩
    · rw [h3]
    · exact TaskMap.get_insert_self _ id _

/-- C5 witness: marking the sample task `Complete` keeps its description and
creation time, bumps `updated`, and leaves other ids alone. -/
theorem update_status_frame_witness :
    ∃ m2, (statusCmd sampleState sampleDT2 1 TaskStatus.Complete).state.tasksFile = some m2 ∧
      TaskMap.get m2 1
        = some ⟨sampleTask.description, TaskStatus.Complete, sampleTask.created, sampleDT2⟩ ∧
      ∀ j, j ≠ 1 → TaskMap.get m2 j = TaskMap.get sampleMap j :=
  (update_status_frame sampleState sampleDT2 sampleDT3 1 ("z") TaskStatus.Complete sampleMap
    sampleTask rfl rfl).2.1

/-- C6: every operation preserves the invariant that each stored task has
`created <= updated` (as instants), given that the current time is not
earlier than the `created` of the task being mutated; Add establishes the
invariant for the new task by setting `created = updated = now`. -/
theorem ops_preserve_invariant (st : FsState) (now : DateTime) (id : Nat) (d : String)
    (ns : TaskStatus)
    (hinv : StoreInv (loadContainer st))
    (hnow : ∀ t : Task, TaskMap.get (loadContainer st) id = some t →
      DateTime.instant t.created ≤ DateTime.instant now) :
    StoreInv (loadContainer (addCmd st now d).state) ∧
    StoreInv (loadContainer (updateCmd st now id d).state) ∧
    StoreInv (loadContainer (deleteCmd st id).state) ∧
    StoreInv (loadContainer (statusCmd st now id ns).state) := by
  refine ⟨StoreInv.insert _ _ _ hinv (le_refl _), ?_, ?_, ?_⟩
  · cases hmf : st.tasksFile with
    | none =>
      simp only [updateCmd, hmf]
      exact hinv
    | some m =>
      have hl : loadContainer st = m := by simp [loadContainer, hmf]
      cases hg : TaskMap.get m id with
      | none =>
        simp only [updateCmd, hmf, hg]
        exact hinv
      | some t =>
        simp only [updateCmd, hmf, hg, loadContainer]
        exact StoreInv.insert _ _ _ (hl ▸ hinv) (hnow t (hl ▸ hg))
  · cases hmf : st.tasksFile with
    | none =>
      simp only [deleteCmd, hmf]
      exact hinv
    | some m =>
      have hl : loadContainer st = m := by simp [loadContainer, hmf]
      cases hg : TaskMap.get m id with
      | none =>
        simp only [deleteCmd, hmf, hg]
        exact hinv
      | some t =>
        simp only [deleteCmd, hmf, hg, loadContainer]
        exact StoreInv.remove _ _ (hl ▸ hinv)
  · cases hmf : st.tasksFile with
    | none =>
      simp only [statusCmd, hmf]
      exact hinv
    | some m =>
      have hl : loadContainer st = m := by simp [loadContainer, hmf]
      cases hg : TaskMap.get m id with
      | none =>
        simp only [statusCmd, hmf, hg]
        exact hinv
      | some t =>
        simp only [statusCmd, hmf, hg, loadContainer]
        exact StoreInv.insert _ _ _ (hl ▸ hinv) (hnow t (hl ▸ hg))

/-- C6 witness: the four operations on the sample store preserve the
invariant for a current time later than the stored creation time. -/
theorem ops_preserve_invariant_witness :
    StoreInv (loadContainer (addCmd sampleState sampleDT2 ("b")).state) ∧
    StoreInv (loadContainer (updateCmd sampleState sampleDT2 1 ("b")).state) ∧
    StoreInv (loadContainer (deleteCmd sampleState 1).state) ∧
    StoreInv (loadContainer (statusCmd sampleState sampleDT2 1 TaskStatus.Complete).state) :=
  ops_preserve_invariant sampleState sampleDT2 1 ("b") TaskStatus.Complete (by decide)
    (fun t ht => by
      have h1 : some sampleTask = some t :=
        (rfl : TaskMap.get (loadContainer sampleState) 1 = some sampleTask).symm.trans ht
      cases Option.some.inj h1
      decide)

/-- C7: serializing a Task Store to the on-disk document format and
deserializing the result yields an identical mapping (same ids, same
descriptions, statuses including the `Other` payload, and timestamps to the
second), for every store whose timestamps the fixed-width RFC 3339 format
can represent. -/
theorem container_roundtrip (m : TaskMap) (h : ∀ p ∈ m, ValidTask p.2) :
    decodeContainer (encodeContainer m) = some m := by
  simp only [encodeContainer, decodeContainer]
  exact decodeEntries_map m h

/-- C7 witness: a concrete two-task store (with an `Other` status and a
negative UTC offset) round-trips. -/
theorem container_roundtrip_witness :
    decodeContainer (encodeContainer sampleMap2) = some sampleMap2 :=
  container_roundtrip sampleMap2 (by decide)

/-- C8: Add succeeds on every description, including the empty string, and
inserts a task with status `Todo` whose `created` and `updated` both equal
the current time. -/
theorem add_always_succeeds (st : FsState) (now : DateTime) (d : String) :
    (addCmd st now d).exit = ExitStatus.success ∧
    (addCmd st now d).output = [] ∧
    TaskMap.get (loadContainer (addCmd st now d).state) (nextIdValue (st.idFile.getD 0))
      = some ⟨d, TaskStatus.Todo, now, now⟩ :=
  ⟨rfl, rfl, TaskMap.get_insert_self _ _ _⟩

/-- C9: Add performs no uniqueness check — when the store already holds a
task at the id the allocator will issue next, Add succeeds and silently
replaces that task with the fresh one. -/
theorem add_overwrites_existing (st : FsState) (now : DateTime) (d : String) (v : Nat)
    (told : Task)
    (hv : st.idFile = some v)
    (_hold : TaskMap.get (loadContainer st) (nextIdValue v) = some told) :
    (addCmd st now d).exit = ExitStatus.success ∧
    (addCmd st now d).state.tasksFile
      = some (TaskMap.insert (loadContainer st) (nextIdValue v)
          ⟨d, TaskStatus.Todo, now, now⟩) ∧
    TaskMap.get (loadContainer (addCmd st now d).state) (nextIdValue v)
      = some ⟨d, TaskStatus.Todo, now, now⟩ := by
  have hgd : st.idFile.getD 0 = v := by rw [hv]; rfl
  refine ⟨rfl, ?_, ?_⟩
  · simp only [addCmd, hgd]
  · simp only [addCmd, hgd, loadContainer]
    exact TaskMap.get_insert_self _ _ _

/-- C9 witness: with counter 0 and a task already stored at id 1, Add
replaces it. -/
theorem add_overwrites_existing_witness :
    (addCmd ⟨some sampleMap, some 0⟩ sampleDT2 ("new")).exit = ExitStatus.success ∧
    (addCmd ⟨some sampleMap, some 0⟩ sampleDT2 ("new")).state.tasksFile
      = some (TaskMap.insert (loadContainer ⟨some sampleMap, some 0⟩) (nextIdValue 0)
          ⟨"new", TaskStatus.Todo, sampleDT2, sampleDT2⟩) ∧
    TaskMap.get (loadContainer (addCmd ⟨some sampleMap, some 0⟩ sampleDT2 ("new")).state)
        (nextIdValue 0)
      = some ⟨"new", TaskStatus.Todo, sampleDT2, sampleDT2⟩ :=
  add_overwrites_existing ⟨some sampleMap, some 0⟩ sampleDT2 ("new") 0 sampleTask rfl (by decide)

/-- C10: Add computes the new id as the stored counter plus one with
unguarded 64-bit unsigned addition: exact for every stored value below
2^64 - 1, and wrapping (no guard, no saturation) at 2^64 - 1, where the
mathematical successor 2^64 is not representable. -/
theorem add_id_wrapping (v : Nat) (tf : Option TaskMap) (now : DateTime) (d : String) :
    (addCmd ⟨tf, some v⟩ now d).state.idFile = some (nextIdValue v) ∧
    nextIdValue v = (v + 1) % 2 ^ 64 ∧
    (v < 2 ^ 64 - 1 → nextIdValue v = v + 1) ∧
    (v = 2 ^ 64 - 1 → nextIdValue v = 0 ∧ v + 1 = 2 ^ 64) := by
  have h64 : (0 : Nat) < 2 ^ 64 := by positivity
  refine ⟨rfl, rfl, ?_, ?_⟩
  · intro h
    rw [nextIdValue]
    exact Nat.mod_eq_of_lt (by omega)
  · intro h
    subst h
    constructor
    · rw [nextIdValue]
      have he : 2 ^ 64 - 1 + 1 = 2 ^ 64 := by omega
      rw [he, Nat.mod_self]
    · omega

/-- C10 witness: at the maximal counter value the issued id wraps to 0. -/
theorem add_id_wrapping_witness :
    nextIdValue (2 ^ 64 - 1) = 0 ∧ (2 ^ 64 - 1) + 1 = 2 ^ 64 :=
  (add_id_wrapping (2 ^ 64 - 1) none sampleDT ("x")).2.2.2 rfl

end Taskr
